import Mathlib

/-!
# Verification of the chronodex radial day-planner core

A shallow embedding, translated from the TypeScript source, of:

* the geometry kernel (`src/app/utils/time-utils.ts`): `polarToCartesian`,
  `describeArc`, `timeToAngle`, `angleToTime`, `snapAngleTo15Min`;
* the interaction controller (`src/app/components/chronodex/chronodex.component.ts`,
  both variants): overlap-level assignment, the drag state machine
  (`handleMouseDown` / `onMove` / `onMouseMove`), `addNow`, modal save;
* the activity service (`src/app/services/chronodex.service.ts`):
  `updateActivity`, `deleteActivity`.

Modelling conventions:

* A JS `Date` is its millisecond timestamp, an integer (`ℤ`); local time is
  taken as UTC, so `getHours`/`getMinutes`/`setHours`/`setMinutes` are plain
  Euclidean arithmetic on the timestamp.
* JS `number` arithmetic on angles and durations is modelled by exact
  rational arithmetic (`ℚ`).  `Math.round`, `Math.floor`, the `%` remainder
  and the truncation performed by the `Date` constructor are modelled
  explicitly (`jsRound`, `jsFloor`, `jsMod`, `jsTrunc`).
* Pointer events are modelled by the angle the component derives from them
  (`getAngleFromEvent`, which queries the DOM, is the cut point: its output
  is the input here).
-/

namespace Chronodex

/-- JS truncation toward zero (used by the `%` operator and by the `Date`
constructor's `ToInteger` conversion). -/
def jsTrunc (q : ℚ) : ℤ := if q < 0 then ⌈q⌉ else ⌊q⌋

/-- The JS `%` remainder: `a - b * trunc (a / b)`; its sign follows the dividend. -/
def jsMod (a b : ℚ) : ℚ := a - b * jsTrunc (a / b)

/-- JS `Math.round`: round half toward positive infinity. -/
def jsRound (q : ℚ) : ℤ := ⌊q + 1 / 2⌋

/-- JS `Math.floor`. -/
def jsFloor (q : ℚ) : ℤ := ⌊q⌋

/-- `Date.prototype.getHours` on a millisecond timestamp. -/
def getHours (t : ℤ) : ℤ := t % 86400000 / 3600000

/-- `Date.prototype.getMinutes`. -/
def getMinutes (t : ℤ) : ℤ := t % 3600000 / 60000

/-- `Date.prototype.getSeconds`. -/
def getSeconds (t : ℤ) : ℤ := t % 60000 / 1000

/-- `Date.prototype.getMilliseconds`. -/
def getMilliseconds (t : ℤ) : ℤ := t % 1000

/-- `d.setHours(h, m, 0, 0)`: keep the calendar date, replace the whole
time-of-day.  Out-of-range `h`/`m` roll over, exactly as in JS. -/
def setHoursMin (t h m : ℤ) : ℤ := t / 86400000 * 86400000 + h * 3600000 + m * 60000

/-- `d.setMinutes(m, 0, 0)`: keep the date and hour, replace the minutes and
zero the seconds/milliseconds.  Out-of-range `m` rolls over, exactly as in JS. -/
def setMinutesSecMs (t m : ℤ) : ℤ := t / 3600000 * 3600000 + m * 60000

/-! ## Geometry kernel (`time-utils.ts`) -/

/-- `polarToCartesian(centerX, centerY, radius, angleInDegrees)`:
`angleInRadians = ((angleInDegrees - 90) * π) / 180`, then
`(centerX + radius·cos, centerY + radius·sin)`. -/
noncomputable def polarToCartesian (centerX centerY radius angleInDegrees : ℚ) : ℝ × ℝ :=
  let angleInRadians : ℝ := ((angleInDegrees : ℝ) - 90) * Real.pi / 180
  ((centerX : ℝ) + (radius : ℝ) * Real.cos angleInRadians,
   (centerY : ℝ) + (radius : ℝ) * Real.sin angleInRadians)

/-- The reassignment of `endAngle` at the top of `describeArc`:
`if (Math.abs(endAngle - startAngle) >= 360) endAngle = startAngle + 359.99`. -/
def clampEndAngle (startAngle endAngle : ℚ) : ℚ :=
  if |endAngle - startAngle| ≥ 360 then startAngle + 359.99 else endAngle

/-- The components of the path string built by `describeArc`:
`M startX startY A rx ry xAxisRotation largeArcFlag sweepFlag endX endY L lineX lineY Z`.
The joined string is determined by these fields (real coordinates cannot be
stringified in the model, so the tuple stands for the joined string). -/
structure ArcPathD where
  startX : ℝ
  startY : ℝ
  rx : ℚ
  ry : ℚ
  xAxisRotation : ℚ
  largeArcFlag : String
  sweepFlag : ℚ
  endX : ℝ
  endY : ℝ
  lineX : ℚ
  lineY : ℚ

/-- `describeArc(x, y, radius, startAngle, endAngle)`: clamp a full-circle
sweep to `359.99`, compute `start = polarToCartesian(..., endAngle)` and
`end = polarToCartesian(..., startAngle)`, set the large-arc flag from
`endAngle - startAngle <= 180`, and assemble the wedge path. -/
noncomputable def describeArc (x y radius startAngle endAngle : ℚ) : ArcPathD :=
  let endAngle' := clampEndAngle startAngle endAngle
  let start := polarToCartesian x y radius endAngle'
  let endPt := polarToCartesian x y radius startAngle
  { startX := start.1, startY := start.2,
    rx := radius, ry := radius, xAxisRotation := 0,
    largeArcFlag := if endAngle' - startAngle ≤ 180 then "0" else "1",
    sweepFlag := 0,
    endX := endPt.1, endY := endPt.2,
    lineX := x, lineY := y }

/-- `timeToAngle(date)`: `(hours + minutes / 60) * 15`. -/
def timeToAngle (t : ℤ) : ℚ := ((getHours t : ℚ) + (getMinutes t : ℚ) / 60) * 15

/-- `angleToTime(angle, baseDate)`: normalize the angle into `[0,360)` by
`(angle + 360) % 360`, convert to total hours, split into floor hours and
rounded minutes, and set that time-of-day on the base date (zeroing
seconds/milliseconds). -/
def angleToTime (angle : ℚ) (base : ℤ) : ℤ :=
  let normalizedAngle := jsMod (angle + 360) 360
  let totalHours := normalizedAngle / 15
  let hours := jsFloor totalHours
  let minutes := jsRound ((totalHours - (hours : ℚ)) * 60)
  setHoursMin base hours minutes

/-- `snapAngleTo15Min(angle)`: `Math.round(angle / 3.75) * 3.75`. -/
def snapAngleTo15Min (angle : ℚ) : ℚ := (jsRound (angle / 3.75) : ℚ) * 3.75

/-! ## Data model (`activity.model.ts`) -/

/-- The `Activity` interface; timestamps are millisecond integers. -/
structure Activity where
  id : String
  title : String
  startTime : ℤ
  endTime : ℤ
  durationMinutes : ℚ
  color : String
deriving DecidableEq, Repr

/-! ## Service (`chronodex.service.ts`)

The `BehaviorSubject` value and the `localStorage` copy are the two
components of the service state; every mutator calls `next` and
`saveToStorage` together (except a not-found `updateActivity`, which does
neither). -/

/-- The service's state: the live activity list and the persisted copy. -/
structure SvcState where
  activities : List Activity
  storage : List Activity
deriving DecidableEq, Repr

/-- The list replacement performed by `updateActivity`: `findIndex` on the id,
and if found, a copy of the list with that slot replaced. -/
def updateActivityList (acts : List Activity) (activity : Activity) : List Activity :=
  match acts.findIdx? (fun a => a.id == activity.id) with
  | some i => acts.set i activity
  | none => acts

/-- `ChronodexService.updateActivity`: replace the matching slot and persist;
if the id is not found, do nothing at all. -/
def updateActivityS (st : SvcState) (activity : Activity) : SvcState :=
  match st.activities.findIdx? (fun a => a.id == activity.id) with
  | some i =>
    let updated := st.activities.set i activity
    { activities := updated, storage := updated }
  | none => st

/-- `ChronodexService.deleteActivity`: filter out the id and persist the
filtered list (unconditionally). -/
def deleteActivityS (st : SvcState) (targetId : String) : SvcState :=
  let updated := st.activities.filter (fun a => a.id != targetId)
  { activities := updated, storage := updated }

/-- `saveActivity` in the component's modal: pushes the edited copy to the
store unchanged (`this.chronodexService.updateActivity(this.editingActivity)`);
no field of the copy is recomputed on the way. -/
def saveActivityS (st : SvcState) (editingActivity : Activity) : SvcState :=
  updateActivityS st editingActivity

/-! ## Overlap-level assignment (`leveledActivities`, both variants) -/

/-- An activity with its display level (`Activity & { level: number }`). -/
structure Leveled where
  act : Activity
  level : ℕ
deriving DecidableEq, Repr

/-- `areOverlapping(a, b)`: the strict interval test
`(start1 < end2) && (end1 > start2)` on full timestamps. -/
def areOverlapping (a b : Activity) : Bool :=
  decide (a.startTime < b.endTime) && decide (a.endTime > b.startTime)

/-- The loop guard of `leveledActivities`:
`result.some(r => r.level === level && this.areOverlapping(act, r))`. -/
def conflictsAt (result : List Leveled) (act : Activity) (level : ℕ) : Bool :=
  result.any (fun r => r.level == level && areOverlapping act r.act)

/-- The `while` loop of `leveledActivities` (`level++` while the guard holds),
written with explicit fuel.  With fuel `levelFuel result` it finds the same
least conflict-free level as the unbounded loop, because every occupied level
is below `levelFuel result` (`findLevel_spec` below). -/
def findLevelFrom (result : List Leveled) (act : Activity) : ℕ → ℕ → ℕ
  | 0, level => level
  | fuel + 1, level =>
    if conflictsAt result act level then findLevelFrom result act fuel (level + 1)
    else level

/-- One more than the highest level occupied in `result` (0 if empty): an
upper bound on the number of iterations of the `while` loop. -/
def levelFuel (result : List Leveled) : ℕ :=
  result.foldr (fun r m => max (r.level + 1) m) 0

/-- The level assigned to `act` by the `while` loop of `leveledActivities`. -/
def findLevel (result : List Leveled) (act : Activity) : ℕ :=
  findLevelFrom result act (levelFuel result) 0

/-- The `for (const act of sorted)` loop of `leveledActivities`, pushing each
activity with its assigned level onto `result`. -/
def leveledGo : List Leveled → List Activity → List Leveled
  | result, [] => result
  | result, act :: rest => leveledGo (result ++ [Leveled.mk act (findLevel result act)]) rest

/-- `this.activities` sorted ascending by `startTime.getTime()`.  JS
`Array.prototype.sort` is required to be a stable sort; with the comparator
`(a, b) => a.startTime.getTime() - b.startTime.getTime()` it is modelled by
the stable `List.insertionSort` under `startTime ≤ startTime`. -/
def sortByStart (acts : List Activity) : List Activity :=
  List.insertionSort (fun a b => a.startTime ≤ b.startTime) acts

/-- `get leveledActivities()`: sort by start time, then greedily assign each
activity the first level at which it conflicts with no already-placed one. -/
def leveledActivities (acts : List Activity) : List Leveled :=
  leveledGo [] (sortByStart acts)

/-- The greedy-level specification: every entry's level is conflict-free
against the entries placed before it, and is the least such level. -/
def GreedyLevels (L : List Leveled) : Prop :=
  ∀ i : ℕ, ∀ h : i < L.length,
    conflictsAt (L.take i) L[i].act L[i].level = false ∧
    ∀ lv : ℕ, lv < L[i].level → conflictsAt (L.take i) L[i].act lv = true

/-! ## Drag state machine (richer variant, lines 33–235) -/

/-- `dragMode: 'start' | 'end' | 'move'`. -/
inductive DragMode
  | dragStart
  | dragEnd
  | dragMove
deriving DecidableEq, Repr

/-- The component's drag-related fields. -/
structure DragSt where
  isDragging : Bool
  draggedActivityId : Option String
  dragMode : DragMode
  dragStartAngle : ℚ
  initialStartTime : Option ℤ
  initialEndTime : Option ℤ
  initialDuration : Option ℚ
  hasMoved : Bool
deriving DecidableEq, Repr

/-- The field initializers of the component. -/
def initialDragSt : DragSt :=
  { isDragging := false, draggedActivityId := none, dragMode := DragMode.dragEnd,
    dragStartAngle := 0, initialStartTime := none, initialEndTime := none,
    initialDuration := none, hasMoved := false }

/-- `handleMouseDown(event, activityId, mode)`: start a drag, record the
press angle, and (when the activity is found) snapshot its start/end/duration
and clear the `hasMoved` latch. -/
def handleMouseDown (st : DragSt) (activities : List Activity) (activityId : String)
    (mode : DragMode) (pressAngle : ℚ) : DragSt :=
  let st' := { st with isDragging := true, draggedActivityId := some activityId,
                       dragMode := mode, dragStartAngle := pressAngle }
  match activities.find? (fun a => a.id == activityId) with
  | some activity =>
    { st' with initialStartTime := some activity.startTime,
               initialEndTime := some activity.endTime,
               initialDuration := some activity.durationMinutes,
               hasMoved := false }
  | none => st'

/-- The duration recomputation of `onMove`/`onMouseMove`:
`diff = (end - start) / (1000 * 60); if (diff < 0) diff += 24 * 60`. -/
def wrapMinutes (ms : ℤ) : ℚ :=
  if (ms : ℚ) / 60000 < 0 then (ms : ℚ) / 60000 + 1440 else (ms : ℚ) / 60000

/-- The `updatedActivity` computed in the body of `onMove` (lines 198–217),
by drag mode.  In `move` mode the snapshotted endpoints are shifted by the
snapped angular delta converted to milliseconds (`(Δ/15)·3600000`), with
`initialDuration || activity.durationMinutes` for the duration (JS `||`
falls through on `0`/`undefined`); in `end`/`start` mode the dragged
endpoint is recomputed from the snapped angle anchored to the other
endpoint's date and the duration is rewrapped. -/
def onMoveCompute (mode : DragMode) (activity : Activity) (st : DragSt)
    (snappedAngle : ℚ) : Activity :=
  match mode with
  | DragMode.dragMove =>
    match st.initialStartTime, st.initialEndTime with
    | some iS, some iE =>
      let angleDiff := snappedAngle - snapAngleTo15Min st.dragStartAngle
      let timeDiffMs := angleDiff / 15 * 60 * 60 * 1000
      { activity with
        startTime := jsTrunc ((iS : ℚ) + timeDiffMs),
        endTime := jsTrunc ((iE : ℚ) + timeDiffMs),
        durationMinutes :=
          match st.initialDuration with
          | some d => if d = 0 then activity.durationMinutes else d
          | none => activity.durationMinutes }
    | _, _ => activity
  | DragMode.dragEnd =>
    let newEnd := angleToTime snappedAngle activity.startTime
    { activity with endTime := newEnd,
                    durationMinutes := wrapMinutes (newEnd - activity.startTime) }
  | DragMode.dragStart =>
    let newStart := angleToTime snappedAngle activity.endTime
    { activity with startTime := newStart,
                    durationMinutes := wrapMinutes (activity.endTime - newStart) }

/-- The result of one `onMove` event: the new drag state, the new activity
list (as re-emitted by the service subscription), and the update pushed to
the service, if any. -/
structure MoveOut where
  st : DragSt
  activities : List Activity
  pushed : Option Activity
deriving DecidableEq, Repr

/-- `onMove(event)` of the richer variant: guard on an active drag (`""` is
falsy in JS, like `null`), update the `hasMoved` latch when the angular
displacement from the press exceeds 2°, early-return in `move` mode while the
latch is unset, recompute the activity from the snapped angle, and push the
update only if a timestamp actually changed. -/
def onMoveV1 (st : DragSt) (activities : List Activity) (angle : ℚ) : MoveOut :=
  if st.isDragging = false then { st := st, activities := activities, pushed := none } else
  match st.draggedActivityId with
  | none => { st := st, activities := activities, pushed := none }
  | some did =>
    if did = "" then { st := st, activities := activities, pushed := none } else
    let hasMoved' := if st.hasMoved = false ∧ |angle - st.dragStartAngle| > 2 then true
                     else st.hasMoved
    let st' := { st with hasMoved := hasMoved' }
    if hasMoved' = false ∧ st'.dragMode = DragMode.dragMove then
      { st := st', activities := activities, pushed := none }
    else
      let snappedAngle := snapAngleTo15Min angle
      match activities.find? (fun a => a.id == did) with
      | none => { st := st', activities := activities, pushed := none }
      | some activity =>
        let updatedActivity := onMoveCompute st'.dragMode activity st' snappedAngle
        if updatedActivity.startTime ≠ activity.startTime ∨
           updatedActivity.endTime ≠ activity.endTime then
          { st := st', activities := updateActivityList activities updatedActivity,
            pushed := some updatedActivity }
        else
          { st := st', activities := activities, pushed := none }

/-- `dragMode: 'start' | 'end'` of the simpler variant. -/
inductive DragModeV2
  | vStart
  | vEnd
deriving DecidableEq, Repr

/-- `onMouseMove(event)` of the simpler variant (lines 487–510): no latch, no
threshold, and the update is pushed unconditionally whenever a drag is active
and the activity is found. -/
def onMouseMoveV2 (isDragging : Bool) (draggedActivityId : Option String)
    (mode : DragModeV2) (activities : List Activity) (angle : ℚ) :
    List Activity × Option Activity :=
  if isDragging = false then (activities, none) else
  match draggedActivityId with
  | none => (activities, none)
  | some did =>
    if did = "" then (activities, none) else
    let snappedAngle := snapAngleTo15Min angle
    match activities.find? (fun a => a.id == did) with
    | none => (activities, none)
    | some activity =>
      let u0 := if mode = DragModeV2.vEnd then
                  { activity with endTime := angleToTime snappedAngle activity.startTime }
                else
                  { activity with startTime := angleToTime snappedAngle activity.endTime }
      let u := { u0 with durationMinutes := wrapMinutes (u0.endTime - u0.startTime) }
      (updateActivityList activities u, some u)

/-- `addNow()`: round the current minutes to the nearest quarter hour
(`setMinutes` rolls `60` over into the next hour), add a 60-minute end, and
build the activity.  The generated uuid and the randomly drawn color enter
as parameters. -/
def addNow (now : ℤ) (newId color : String) : Activity :=
  let minutes := getMinutes now
  let roundedMinutes := jsRound ((minutes : ℚ) / 15) * 15
  let startTime := setMinutesSecMs now roundedMinutes
  let endTime := startTime + 60 * 60 * 1000
  { id := newId, title := "New Activity", startTime := startTime, endTime := endTime,
    durationMinutes := 60, color := color }

/-- The `durationMinutes` invariant claimed by the spec: the stored duration
is the start-to-end difference in minutes, wrapped by adding 1440 when
negative. -/
def DurationInvariant (a : Activity) : Prop :=
  a.durationMinutes = wrapMinutes (a.endTime - a.startTime)

/-! ## Concrete fixtures used by the example parts of the claims -/

/-- Milliseconds of `h:m` on the reference day. -/
def hm (h m : ℤ) : ℤ := h * 3600000 + m * 60000

/-- `[09:00, 10:00)`. -/
def actA : Activity :=
  { id := "A", title := "a", startTime := hm 9 0, endTime := hm 10 0,
    durationMinutes := 60, color := "red" }

/-- `[09:30, 10:30)`. -/
def actB : Activity :=
  { id := "B", title := "b", startTime := hm 9 30, endTime := hm 10 30,
    durationMinutes := 60, color := "blue" }

/-- `[09:15, 10:15)`. -/
def actC : Activity :=
  { id := "C", title := "c", startTime := hm 9 15, endTime := hm 10 15,
    durationMinutes := 60, color := "green" }

/-- `[10:00, 11:00)`, touching `actA` end-to-start. -/
def actD : Activity :=
  { id := "D", title := "d", startTime := hm 10 0, endTime := hm 11 0,
    durationMinutes := 60, color := "gold" }

/-- `[23:00, 23:30)`, consistent duration 30. -/
def actN : Activity :=
  { id := "N", title := "n", startTime := hm 23 0, endTime := hm 23 30,
    durationMinutes := 30, color := "teal" }

/-- A modal-edited copy of `actN` whose `endTime` was moved to `01:00` while
`durationMinutes` kept its stale value 30. -/
def actNEdited : Activity :=
  { id := "N", title := "n", startTime := hm 23 0, endTime := hm 1 0,
    durationMinutes := 30, color := "teal" }

/-! ## Helper lemmas -/

theorem jsTrunc_intCast (n : ℤ) : jsTrunc (n : ℚ) = n := by
  unfold jsTrunc
  split
  · exact Int.ceil_intCast n
  · exact Int.floor_intCast n

theorem floor_int_add_of_lt_one (n : ℤ) (x : ℚ) (h0 : 0 ≤ x) (h1 : x < 1) :
    ⌊(n : ℚ) + x⌋ = n := by
  refine Int.floor_eq_iff.mpr ⟨by linarith, by linarith⟩

theorem jsRound_intCast (n : ℤ) : jsRound (n : ℚ) = n := by
  unfold jsRound
  exact floor_int_add_of_lt_one n (1 / 2) (by norm_num) (by norm_num)

theorem jsMod_360_self (a : ℚ) (h0 : 0 ≤ a) (h1 : a < 360) : jsMod (a + 360) 360 = a := by
  unfold jsMod jsTrunc
  have hnn : ¬ (a + 360) / 360 < 0 := by
    refine not_lt.mpr (div_nonneg (by linarith) (by norm_num))
  rw [if_neg hnn]
  have h3 : ⌊(a + 360) / 360⌋ = 1 := by
    refine Int.floor_eq_iff.mpr ⟨?_, ?_⟩
    · rw [le_div_iff₀ (by norm_num : (0:ℚ) < 360)]; push_cast; linarith
    · rw [div_lt_iff₀ (by norm_num : (0:ℚ) < 360)]; push_cast; linarith
  rw [h3]
  push_cast
  ring

theorem getHours_bounds (t : ℤ) : 0 ≤ getHours t ∧ getHours t < 24 := by
  unfold getHours; omega

theorem getMinutes_bounds (t : ℤ) : 0 ≤ getMinutes t ∧ getMinutes t < 60 := by
  unfold getMinutes; omega

/-- Reading the time fields back out of a canonically decomposed timestamp. -/
theorem timefields_of_canonical (D h m : ℤ) (h0 : 0 ≤ h) (h1 : h < 24)
    (m0 : 0 ≤ m) (m1 : m < 60) :
    getHours (D * 86400000 + h * 3600000 + m * 60000) = h ∧
    getMinutes (D * 86400000 + h * 3600000 + m * 60000) = m ∧
    getSeconds (D * 86400000 + h * 3600000 + m * 60000) = 0 ∧
    getMilliseconds (D * 86400000 + h * 3600000 + m * 60000) = 0 ∧
    (D * 86400000 + h * 3600000 + m * 60000) / 86400000 = D := by
  unfold getHours getMinutes getSeconds getMilliseconds
  refine ⟨by omega, by omega, by omega, by omega, by omega⟩

/-! ## Claim theorems -/

/-- **C1.** For every time of day `t`, `angleToTime (timeToAngle t) t`
reproduces `t`'s hours and minutes exactly (hence within rounding of one
minute), preserves `t`'s calendar date, and zeroes seconds and milliseconds. -/
theorem claim_C1_roundTrip (t : ℤ) :
    angleToTime (timeToAngle t) t =
      t / 86400000 * 86400000 + getHours t * 3600000 + getMinutes t * 60000 ∧
    getHours (angleToTime (timeToAngle t) t) = getHours t ∧
    getMinutes (angleToTime (timeToAngle t) t) = getMinutes t ∧
    getSeconds (angleToTime (timeToAngle t) t) = 0 ∧
    getMilliseconds (angleToTime (timeToAngle t) t) = 0 ∧
    (angleToTime (timeToAngle t) t) / 86400000 = t / 86400000 := by
  obtain ⟨hH0, hH1⟩ := getHours_bounds t
  obtain ⟨hM0, hM1⟩ := getMinutes_bounds t
  have cH0 : (0 : ℚ) ≤ (getHours t : ℚ) := by exact_mod_cast hH0
  have cH1 : (getHours t : ℚ) ≤ 23 := by exact_mod_cast Int.lt_add_one_iff.mp hH1
  have cM0 : (0 : ℚ) ≤ (getMinutes t : ℚ) := by exact_mod_cast hM0
  have cM1 : (getMinutes t : ℚ) < 60 := by exact_mod_cast hM1
  have cMfrac : (getMinutes t : ℚ) / 60 < 1 := by
    rw [div_lt_one (by norm_num : (0:ℚ) < 60)]; exact cM1
  have cMfrac0 : (0 : ℚ) ≤ (getMinutes t : ℚ) / 60 := by positivity
  have key : angleToTime (timeToAngle t) t =
      t / 86400000 * 86400000 + getHours t * 3600000 + getMinutes t * 60000 := by
    simp only [angleToTime, timeToAngle]
    rw [jsMod_360_self _ (by linarith) (by linarith)]
    have hth : ((getHours t : ℚ) + (getMinutes t : ℚ) / 60) * 15 / 15 =
        (getHours t : ℚ) + (getMinutes t : ℚ) / 60 := by ring
    rw [hth]
    have hfl : jsFloor ((getHours t : ℚ) + (getMinutes t : ℚ) / 60) = getHours t := by
      unfold jsFloor
      exact floor_int_add_of_lt_one _ _ cMfrac0 cMfrac
    rw [hfl]
    have hmin : ((getHours t : ℚ) + (getMinutes t : ℚ) / 60 - (getHours t : ℚ)) * 60 =
        ((getMinutes t : ℚ)) := by ring
    rw [hmin, jsRound_intCast]
    rfl
  obtain ⟨f1, f2, f3, f4, f5⟩ :=
    timefields_of_canonical (t / 86400000) (getHours t) (getMinutes t) hH0 hH1 hM0 hM1
  exact ⟨key, by rw [key]; exact f1, by rw [key]; exact f2, by rw [key]; exact f3,
    by rw [key]; exact f4, by rw [key]; exact f5⟩

/-- **C5.** `snapAngleTo15Min` always returns an integer multiple of `3.75`,
and it is idempotent. -/
theorem claim_C5_snapMultipleIdempotent (a : ℚ) :
    (∃ k : ℤ, snapAngleTo15Min a = (k : ℚ) * 3.75) ∧
    snapAngleTo15Min (snapAngleTo15Min a) = snapAngleTo15Min a := by
  constructor
  · exact ⟨jsRound (a / 3.75), rfl⟩
  · show (jsRound ((jsRound (a / 3.75) : ℚ) * 3.75 / 3.75) : ℚ) * 3.75 = _
    rw [mul_div_cancel_right₀ _ (by norm_num : (3.75 : ℚ) ≠ 0), jsRound_intCast]
    rfl

/-- **C10.** On inputs in `(358.125, 360)` — hence on inputs inside `[0,360)` —
`snapAngleTo15Min` returns exactly `360`, so its output is not confined to
`[0, 360)`; and `angleToTime` maps the snapped angle `360` to time-of-day
`00:00` of the base date via its `(angle + 360) % 360` normalization. -/
theorem claim_C10_snapOverflow :
    (∀ a : ℚ, 358.125 < a → a < 360 → snapAngleTo15Min a = 360) ∧
    (∀ base : ℤ, angleToTime 360 base = base / 86400000 * 86400000) ∧
    (∃ a : ℚ, 0 ≤ a ∧ a < 360 ∧ ¬ snapAngleTo15Min a < 360) := by
  refine ⟨?_, ?_, ?_⟩
  · intro a h1 h2
    unfold snapAngleTo15Min
    have hr : jsRound (a / 3.75) = 96 := by
      unfold jsRound
      refine Int.floor_eq_iff.mpr ⟨?_, ?_⟩
      · have : (95.5 : ℚ) < a / 3.75 := by
          rw [lt_div_iff₀ (by norm_num : (0:ℚ) < 3.75)]; nlinarith
        push_cast; linarith
      · have : a / 3.75 < 96 := by
          rw [div_lt_iff₀ (by norm_num : (0:ℚ) < 3.75)]; nlinarith
        push_cast; linarith
    rw [hr]; norm_num
  · intro base
    norm_num [angleToTime, jsMod, jsTrunc, jsFloor, jsRound, setHoursMin]
  · exact ⟨359, by norm_num, by norm_num, by norm_num [snapAngleTo15Min, jsRound]⟩

/-- Witness for C10 at the concrete input `359`. -/
theorem claim_C10_snapOverflow_witness :
    (358.125 : ℚ) < 359 ∧ snapAngleTo15Min 359 = 360 :=
  ⟨by norm_num, claim_C10_snapOverflow.1 359 (by norm_num) (by norm_num)⟩

/-- **C7.** Whatever the wall-clock time `now` (and whatever uuid and color are
drawn), the activity built by `addNow` has duration 60, an end time exactly 60
minutes after its start, and a start time on a quarter-hour boundary with zero
seconds and milliseconds. -/
theorem claim_C7_addNow (now : ℤ) (newId color : String) :
    (addNow now newId color).durationMinutes = 60 ∧
    (addNow now newId color).endTime = (addNow now newId color).startTime + 60 * 60000 ∧
    getMinutes (addNow now newId color).startTime % 15 = 0 ∧
    getSeconds (addNow now newId color).startTime = 0 ∧
    getMilliseconds (addNow now newId color).startTime = 0 := by
  simp only [addNow, setMinutesSecMs, getMinutes, getSeconds, getMilliseconds]
  refine ⟨trivial, by omega, ?_, ?_, ?_⟩ <;>
  · generalize jsRound ((now % 3600000 / 60000 : ℤ) / 15 : ℚ) = j
    omega

/-- **C9.** `updateActivity` with an id matching no stored activity leaves the
service state (live list and persisted copy) completely unchanged, and
`deleteActivity` with an unknown id leaves every stored activity in place;
both are total functions, so neither can fail. -/
theorem claim_C9_notFoundNoOp :
    (∀ (st : SvcState) (a : Activity), (∀ x ∈ st.activities, x.id ≠ a.id) →
      updateActivityS st a = st) ∧
    (∀ (st : SvcState) (targetId : String), (∀ x ∈ st.activities, x.id ≠ targetId) →
      (deleteActivityS st targetId).activities = st.activities ∧
      (deleteActivityS st targetId).storage = st.activities) := by
  constructor
  · intro st a h
    unfold updateActivityS
    have hnone : st.activities.findIdx? (fun x => x.id == a.id) = none := by
      rw [List.findIdx?_eq_none_iff]
      intro x hx
      simpa using h x hx
    rw [hnone]
  · intro st targetId h
    unfold deleteActivityS
    have hkeep : st.activities.filter (fun x => x.id != targetId) = st.activities := by
      rw [List.filter_eq_self]
      intro x hx
      simpa using h x hx
    exact ⟨hkeep, hkeep⟩

/-- Witness for C9: updating with the unknown id `"B"` and deleting the
unknown id `"Z"` in a one-activity store. -/
theorem claim_C9_notFoundNoOp_witness :
    updateActivityS { activities := [actA], storage := [actA] } actB =
      { activities := [actA], storage := [actA] } ∧
    (deleteActivityS { activities := [actA], storage := [actA] } "Z").activities = [actA] :=
  ⟨claim_C9_notFoundNoOp.1 _ actB (by decide),
   (claim_C9_notFoundNoOp.2 { activities := [actA], storage := [actA] } "Z" (by decide)).1⟩

/-! ## Correctness of the greedy level search -/

/-- The fueled `while` loop, run with enough fuel, returns the least
conflict-free level at or above its starting level. -/
theorem findLevelFrom_spec (result : List Leveled) (act : Activity) :
    ∀ (fuel start : ℕ), (∀ lv, start + fuel ≤ lv → conflictsAt result act lv = false) →
      conflictsAt result act (findLevelFrom result act fuel start) = false ∧
      start ≤ findLevelFrom result act fuel start ∧
      ∀ lv, start ≤ lv → lv < findLevelFrom result act fuel start →
        conflictsAt result act lv = true := by
  intro fuel
  induction fuel with
  | zero =>
    intro start h
    refine ⟨h start (by omega), Nat.le_refl _, ?_⟩
    intro lv h1 h2
    simp only [findLevelFrom] at h2
    omega
  | succ fuel ih =>
    intro start h
    simp only [findLevelFrom]
    cases hc : conflictsAt result act start with
    | false => exact ⟨by simp [hc], Nat.le_refl _, fun lv h1 h2 => by simp at h2; omega⟩
    | true =>
      simp only [if_pos rfl, if_true]
      obtain ⟨r1, r2, r3⟩ := ih (start + 1) (fun lv hlv => h lv (by omega))
      refine ⟨r1, by omega, ?_⟩
      intro lv h1 h2
      rcases Nat.eq_or_lt_of_le h1 with rfl | hgt
      · exact hc
      · exact r3 lv (by omega) h2

/-- Every level occupied in `result` is below `levelFuel result`. -/
theorem levelFuel_gt (result : List Leveled) : ∀ r ∈ result, r.level < levelFuel result := by
  unfold levelFuel
  induction result with
  | nil => intro r hr; cases hr
  | cons x rest ih =>
    intro r hr
    simp only [List.foldr_cons]
    rcases List.mem_cons.mp hr with rfl | hr
    · omega
    · have := ih r hr
      omega

/-- Levels at or above `levelFuel result` are conflict-free. -/
theorem conflictsAt_of_ge_levelFuel (result : List Leveled) (act : Activity) (lv : ℕ)
    (h : levelFuel result ≤ lv) : conflictsAt result act lv = false := by
  unfold conflictsAt
  rw [List.any_eq_false]
  intro r hr
  have hlt := levelFuel_gt result r hr
  have hne : r.level ≠ lv := by omega
  simp [hne]

/-- `findLevel` computes the least conflict-free level — what the source's
unbounded `while` loop computes. -/
theorem findLevel_spec (result : List Leveled) (act : Activity) :
    conflictsAt result act (findLevel result act) = false ∧
    ∀ lv, lv < findLevel result act → conflictsAt result act lv = true := by
  obtain ⟨r1, _, r3⟩ := findLevelFrom_spec result act (levelFuel result) 0
    (fun lv hlv => conflictsAt_of_ge_levelFuel result act lv (by omega))
  exact ⟨r1, fun lv hlv => r3 lv (Nat.zero_le _) hlv⟩

/-- The loop body preserves the order of processed activities. -/
theorem leveledGo_map_act : ∀ (todo : List Activity) (result : List Leveled),
    (leveledGo result todo).map Leveled.act = result.map Leveled.act ++ todo := by
  intro todo
  induction todo with
  | nil => intro result; simp [leveledGo]
  | cons a rest ih =>
    intro result
    rw [leveledGo, ih]
    simp

/-- Adding one greedily-leveled entry preserves the greedy specification. -/
theorem greedyLevels_append (result : List Leveled) (act : Activity)
    (h : GreedyLevels result) :
    GreedyLevels (result ++ [Leveled.mk act (findLevel result act)]) := by
  intro i hi
  simp only [List.length_append, List.length_cons, List.length_nil] at hi
  rcases Nat.lt_or_ge i result.length with hlt | hge
  · have hget : (result ++ [Leveled.mk act (findLevel result act)])[i] = result[i] :=
      List.getElem_append_left hlt
    have htake : (result ++ [Leveled.mk act (findLevel result act)]).take i =
        result.take i := List.take_append_of_le_length (by omega)
    rw [hget, htake]
    exact h i hlt
  · have hieq : i = result.length := by omega
    subst hieq
    have hget : (result ++ [Leveled.mk act (findLevel result act)])[result.length] =
        Leveled.mk act (findLevel result act) :=
      List.getElem_concat_length result _ _ rfl (by simp)
    have htake : (result ++ [Leveled.mk act (findLevel result act)]).take
        result.length = result := List.take_left result _
    rw [hget, htake]
    exact findLevel_spec result act

/-- The loop of `leveledActivities` keeps the whole list greedy. -/
theorem leveledGo_greedy : ∀ (todo : List Activity) (result : List Leveled),
    GreedyLevels result → GreedyLevels (leveledGo result todo) := by
  intro todo
  induction todo with
  | nil => intro result h; exact h
  | cons a rest ih =>
    intro result h
    rw [leveledGo]
    exact ih _ (greedyLevels_append result a h)

/-- The empty placement is (vacuously) greedy. -/
theorem greedyLevels_nil : GreedyLevels [] := by
  intro i hi
  cases hi

/-- **C2.** `leveledActivities` sorts ascending by start timestamp (the
underlying list of activities is a permutation of the input, pairwise ordered
by start time) and assigns every activity the least level at which it
overlaps — under the strict `start1 < end2 && end1 > start2` test on full
timestamps — no already-placed activity (`GreedyLevels`).  In particular
`[09:00,10:00)`/`[09:30,10:30)` get levels 0 and 1, three mutually
overlapping activities get levels 0, 1, 2, and touching intervals
`[09:00,10:00)`/`[10:00,11:00)` both get level 0. -/
theorem claim_C2_leveling :
    (∀ acts : List Activity,
      List.Perm ((leveledActivities acts).map Leveled.act) acts ∧
      ((leveledActivities acts).map Leveled.act).Pairwise
        (fun a b => a.startTime ≤ b.startTime) ∧
      GreedyLevels (leveledActivities acts)) ∧
    (leveledActivities [actA, actB]).map Leveled.level = [0, 1] ∧
    (leveledActivities [actA, actC, actB]).map Leveled.level = [0, 1, 2] ∧
    (leveledActivities [actA, actD]).map Leveled.level = [0, 0] := by
  refine ⟨?_, by decide, by decide, by decide⟩
  intro acts
  haveI htot : IsTotal Activity (fun a b => a.startTime ≤ b.startTime) :=
    ⟨fun a b => le_total a.startTime b.startTime⟩
  haveI htr : IsTrans Activity (fun a b => a.startTime ≤ b.startTime) :=
    ⟨fun a b c h1 h2 => le_trans h1 h2⟩
  have hmap : (leveledActivities acts).map Leveled.act = sortByStart acts := by
    unfold leveledActivities
    rw [leveledGo_map_act]
    simp
  refine ⟨?_, ?_, leveledGo_greedy _ [] greedyLevels_nil⟩
  · rw [hmap]
    exact List.perm_insertionSort _ acts
  · rw [hmap]
    exact List.sorted_insertionSort _ acts

/-- Witness for C2 on the two-activity overlap example. -/
theorem claim_C2_leveling_witness :
    List.Perm ((leveledActivities [actA, actB]).map Leveled.act) [actA, actB] :=
  (claim_C2_leveling.1 [actA, actB]).1

/-! ## Range facts about snapped angles and recomputed durations -/

/-- A drag angle in `[0, 360)` snaps to `k · 3.75` with `k ∈ [0, 96]`. -/
theorem snap_of_range (angle : ℚ) (h0 : 0 ≤ angle) (h1 : angle < 360) :
    ∃ k : ℤ, 0 ≤ k ∧ k ≤ 96 ∧ snapAngleTo15Min angle = (k : ℚ) * 3.75 := by
  refine ⟨jsRound (angle / 3.75), ?_, ?_, rfl⟩
  · unfold jsRound
    exact Int.floor_nonneg.mpr (by positivity)
  · unfold jsRound
    have h2 : angle / 3.75 < 96 := by
      rw [div_lt_iff₀ (by norm_num : (0:ℚ) < 3.75)]
      linarith
    have h3 : ⌊angle / 3.75 + 1 / 2⌋ < 97 := Int.floor_lt.mpr (by push_cast; linarith)
    omega

/-- `angleToTime` at a snapped angle `k·3.75`, `k ∈ [0, 96]`, lands on the base
date at a quarter-hour time-of-day (never rolling into another day, because
the rounded minutes are `0/15/30/45`, or exactly midnight when `k = 96`). -/
theorem angleToTime_quarter (k : ℤ) (hk0 : 0 ≤ k) (hk1 : k ≤ 96) (base : ℤ) :
    ∃ h m : ℤ, 0 ≤ h ∧ h < 24 ∧ 0 ≤ m ∧ m ≤ 45 ∧
      angleToTime ((k : ℚ) * 3.75) base =
        base / 86400000 * 86400000 + h * 3600000 + m * 60000 := by
  rcases eq_or_lt_of_le hk1 with rfl | hk95
  · refine ⟨0, 0, le_refl _, by norm_num, le_refl _, by norm_num, ?_⟩
    norm_num [angleToTime, jsMod, jsTrunc, jsFloor, jsRound, setHoursMin]
  · obtain ⟨q, r, hqr, hr0, hr3, hq0, hq23⟩ :
        ∃ q r : ℤ, k = 4 * q + r ∧ 0 ≤ r ∧ r ≤ 3 ∧ 0 ≤ q ∧ q ≤ 23 :=
      ⟨k / 4, k % 4, by omega, by omega, by omega, by omega, by omega⟩
    have hcast : (k : ℚ) = 4 * (q : ℚ) + (r : ℚ) := by exact_mod_cast hqr
    have cq23 : (q : ℚ) ≤ 23 := by exact_mod_cast hq23
    have cq0 : (0 : ℚ) ≤ (q : ℚ) := by exact_mod_cast hq0
    have cr3 : (r : ℚ) ≤ 3 := by exact_mod_cast hr3
    have cr0 : (0 : ℚ) ≤ (r : ℚ) := by exact_mod_cast hr0
    have ck0 : (0 : ℚ) ≤ (k : ℚ) := by exact_mod_cast hk0
    have ha0 : 0 ≤ (k : ℚ) * 3.75 := by nlinarith
    have ha1 : (k : ℚ) * 3.75 < 360 := by rw [hcast]; nlinarith
    simp only [angleToTime]
    rw [jsMod_360_self _ ha0 ha1]
    have h15 : (k : ℚ) * 3.75 / 15 = (q : ℚ) + (r : ℚ) / 4 := by rw [hcast]; ring
    rw [h15]
    have hfl : jsFloor ((q : ℚ) + (r : ℚ) / 4) = q := by
      unfold jsFloor
      exact floor_int_add_of_lt_one q _ (by positivity) (by linarith)
    rw [hfl]
    have hmr : ((q : ℚ) + (r : ℚ) / 4 - (q : ℚ)) * 60 = ((15 * r : ℤ) : ℚ) := by
      push_cast
      ring
    rw [hmr, jsRound_intCast]
    exact ⟨q, 15 * r, hq0, by omega, by omega, by omega, rfl⟩

/-- A start-to-end gap strictly within one day wraps into `[0, 1440)` minutes. -/
theorem wrapMinutes_range (ms : ℤ) (hlo : -86400000 < ms) (hhi : ms < 86400000) :
    0 ≤ wrapMinutes ms ∧ wrapMinutes ms < 1440 := by
  have c1 : (-1440 : ℚ) < (ms : ℚ) / 60000 := by
    rw [lt_div_iff₀ (by norm_num : (0:ℚ) < 60000)]
    have : (-86400000 : ℚ) < (ms : ℚ) := by exact_mod_cast hlo
    linarith
  have c2 : (ms : ℚ) / 60000 < 1440 := by
    rw [div_lt_iff₀ (by norm_num : (0:ℚ) < 60000)]
    have : (ms : ℚ) < (86400000 : ℚ) := by exact_mod_cast hhi
    linarith
  unfold wrapMinutes
  split_ifs with hneg
  · exact ⟨by linarith, by linarith⟩
  · exact ⟨le_of_not_lt hneg, c2⟩

/-- An `end`-mode drag at a pointer angle in `[0,360)` establishes the duration
invariant with a value inside `[0, 1440)`. -/
theorem dragEnd_inv (a : Activity) (st : DragSt) (angle : ℚ)
    (h0 : 0 ≤ angle) (h1 : angle < 360) :
    DurationInvariant (onMoveCompute DragMode.dragEnd a st (snapAngleTo15Min angle)) ∧
    0 ≤ (onMoveCompute DragMode.dragEnd a st (snapAngleTo15Min angle)).durationMinutes ∧
    (onMoveCompute DragMode.dragEnd a st (snapAngleTo15Min angle)).durationMinutes < 1440 := by
  obtain ⟨k, hk0, hk1, hsnap⟩ := snap_of_range angle h0 h1
  obtain ⟨h, m, hh0, hh1, hm0, hm1, heq⟩ := angleToTime_quarter k hk0 hk1 a.startTime
  have hrange1 : -86400000 < angleToTime (snapAngleTo15Min angle) a.startTime - a.startTime := by
    rw [hsnap, heq]; omega
  have hrange2 : angleToTime (snapAngleTo15Min angle) a.startTime - a.startTime < 86400000 := by
    rw [hsnap, heq]; omega
  have hd : (onMoveCompute DragMode.dragEnd a st (snapAngleTo15Min angle)).durationMinutes =
      wrapMinutes (angleToTime (snapAngleTo15Min angle) a.startTime - a.startTime) := rfl
  obtain ⟨w1, w2⟩ := wrapMinutes_range _ hrange1 hrange2
  exact ⟨rfl, by rw [hd]; exact w1, by rw [hd]; exact w2⟩

/-- A `start`-mode drag at a pointer angle in `[0,360)` establishes the
duration invariant with a value inside `[0, 1440)`. -/
theorem dragStart_inv (a : Activity) (st : DragSt) (angle : ℚ)
    (h0 : 0 ≤ angle) (h1 : angle < 360) :
    DurationInvariant (onMoveCompute DragMode.dragStart a st (snapAngleTo15Min angle)) ∧
    0 ≤ (onMoveCompute DragMode.dragStart a st (snapAngleTo15Min angle)).durationMinutes ∧
    (onMoveCompute DragMode.dragStart a st (snapAngleTo15Min angle)).durationMinutes < 1440 := by
  obtain ⟨k, hk0, hk1, hsnap⟩ := snap_of_range angle h0 h1
  obtain ⟨h, m, hh0, hh1, hm0, hm1, heq⟩ := angleToTime_quarter k hk0 hk1 a.endTime
  have hrange1 : -86400000 < a.endTime - angleToTime (snapAngleTo15Min angle) a.endTime := by
    rw [hsnap, heq]; omega
  have hrange2 : a.endTime - angleToTime (snapAngleTo15Min angle) a.endTime < 86400000 := by
    rw [hsnap, heq]; omega
  have hd : (onMoveCompute DragMode.dragStart a st (snapAngleTo15Min angle)).durationMinutes =
      wrapMinutes (a.endTime - angleToTime (snapAngleTo15Min angle) a.endTime) := rfl
  obtain ⟨w1, w2⟩ := wrapMinutes_range _ hrange1 hrange2
  exact ⟨rfl, by rw [hd]; exact w1, by rw [hd]; exact w2⟩

/-- A `move`-mode drag shifts both endpoints by the same whole number of
milliseconds and keeps the snapshotted duration, so it preserves the duration
invariant (the snapshot is taken from the dragged activity at mouse-down). -/
theorem dragMove_inv (a : Activity) (st : DragSt) (angle : ℚ) (iS iE : ℤ) (iD : ℚ)
    (hS : st.initialStartTime = some iS) (hE : st.initialEndTime = some iE)
    (hD : st.initialDuration = some iD) (hwrap : iD = wrapMinutes (iE - iS))
    (hdur : a.durationMinutes = iD) :
    DurationInvariant (onMoveCompute DragMode.dragMove a st (snapAngleTo15Min angle)) := by
  have harg1 : (iS : ℚ) +
      (snapAngleTo15Min angle - snapAngleTo15Min st.dragStartAngle) / 15 * 60 * 60 * 1000 =
      ((iS + 900000 * (jsRound (angle / 3.75) - jsRound (st.dragStartAngle / 3.75)) : ℤ) : ℚ) := by
    simp only [snapAngleTo15Min]
    push_cast
    ring
  have harg2 : (iE : ℚ) +
      (snapAngleTo15Min angle - snapAngleTo15Min st.dragStartAngle) / 15 * 60 * 60 * 1000 =
      ((iE + 900000 * (jsRound (angle / 3.75) - jsRound (st.dragStartAngle / 3.75)) : ℤ) : ℚ) := by
    simp only [snapAngleTo15Min]
    push_cast
    ring
  simp only [onMoveCompute, hS, hE, hD, DurationInvariant]
  rw [harg1, harg2, jsTrunc_intCast, jsTrunc_intCast]
  have hdiff : (iE + 900000 * (jsRound (angle / 3.75) - jsRound (st.dragStartAngle / 3.75))) -
      (iS + 900000 * (jsRound (angle / 3.75) - jsRound (st.dragStartAngle / 3.75))) = iE - iS := by
    ring
  rw [hdiff]
  split_ifs with hz
  · rw [hdur, hwrap]
  · exact hwrap

/-- **C3 (amended).** After a drag in `end` or `start` mode with a pointer
angle in `[0, 360)` — the range `getAngleFromEvent` produces — the updated
activity's `durationMinutes` equals `(endTime − startTime)` in minutes wrapped
by adding 1440 if negative, and that value lies in `[0, 1440)`; a `move`-mode
drag preserves the invariant established at mouse-down.  Dragging the end of
an activity starting at `23:00` to the `01:00` position yields duration `120`.
(Modal save, by contrast, pushes the edited copy unchanged and does not
recompute `durationMinutes` — see the counterexample.) -/
theorem claim_C3_durationInvariant :
    (∀ (a : Activity) (st : DragSt) (angle : ℚ), 0 ≤ angle → angle < 360 →
      (DurationInvariant (onMoveCompute DragMode.dragEnd a st (snapAngleTo15Min angle)) ∧
        0 ≤ (onMoveCompute DragMode.dragEnd a st (snapAngleTo15Min angle)).durationMinutes ∧
        (onMoveCompute DragMode.dragEnd a st (snapAngleTo15Min angle)).durationMinutes < 1440) ∧
      (DurationInvariant (onMoveCompute DragMode.dragStart a st (snapAngleTo15Min angle)) ∧
        0 ≤ (onMoveCompute DragMode.dragStart a st (snapAngleTo15Min angle)).durationMinutes ∧
        (onMoveCompute DragMode.dragStart a st (snapAngleTo15Min angle)).durationMinutes < 1440)) ∧
    (∀ (a : Activity) (st : DragSt) (angle : ℚ) (iS iE : ℤ) (iD : ℚ),
      st.initialStartTime = some iS → st.initialEndTime = some iE →
      st.initialDuration = some iD → iD = wrapMinutes (iE - iS) →
      a.durationMinutes = iD →
      DurationInvariant (onMoveCompute DragMode.dragMove a st (snapAngleTo15Min angle))) ∧
    ((onMoveCompute DragMode.dragEnd actN initialDragSt (snapAngleTo15Min 15)).endTime = hm 1 0 ∧
      (onMoveCompute DragMode.dragEnd actN initialDragSt
        (snapAngleTo15Min 15)).durationMinutes = 120) := by
  refine ⟨fun a st angle h0 h1 => ⟨dragEnd_inv a st angle h0 h1, dragStart_inv a st angle h0 h1⟩,
    fun a st angle iS iE iD hS hE hD hwrap hdur =>
      dragMove_inv a st angle iS iE iD hS hE hD hwrap hdur, ?_, ?_⟩
  · norm_num [onMoveCompute, snapAngleTo15Min, jsRound, angleToTime, jsMod, jsTrunc, jsFloor,
      setHoursMin, actN, hm]
  · norm_num [onMoveCompute, snapAngleTo15Min, jsRound, angleToTime, jsMod, jsTrunc, jsFloor,
      setHoursMin, wrapMinutes, actN, hm]

/-- Witness for C3 at the concrete `end`-mode drag of `actN` to angle `15`. -/
theorem claim_C3_durationInvariant_witness :
    DurationInvariant (onMoveCompute DragMode.dragEnd actN initialDragSt
      (snapAngleTo15Min 15)) :=
  ((claim_C3_durationInvariant.1 actN initialDragSt 15 (by norm_num) (by norm_num)).1).1

/-- Counterexample for C3 as stated: a modal save that changes `endTime` does
not recompute `durationMinutes`.  Saving the edited copy `actNEdited`
(end moved from `23:30` to `01:00`, stale duration 30) stores it verbatim,
and the stored activity violates the duration invariant (the wrapped
difference is 120, not 30). -/
theorem claim_C3_counterexample :
    saveActivityS { activities := [actN], storage := [actN] } actNEdited =
      { activities := [actNEdited], storage := [actNEdited] } ∧
    actNEdited.endTime ≠ actN.endTime ∧
    ¬ DurationInvariant actNEdited := by
  refine ⟨by decide, by decide, ?_⟩
  norm_num [DurationInvariant, wrapMinutes, actNEdited, hm]

/-! ## Evaluating one `onMove` event -/

/-- `onMoveCompute` reads only the drag-start angle and the snapshots, never
the `hasMoved` latch. -/
theorem onMoveCompute_hasMoved_irrel (mode : DragMode) (a : Activity) (st : DragSt)
    (b : Bool) (snapped : ℚ) :
    onMoveCompute mode a { st with hasMoved := b } snapped =
      onMoveCompute mode a st snapped := by
  cases mode <;> rfl

/-- `handleMouseDown` when the dragged activity is found. -/
theorem handleMouseDown_found (st0 : DragSt) (acts : List Activity) (aid : String)
    (mode : DragMode) (p : ℚ) (a : Activity)
    (hfind : acts.find? (fun x => x.id == aid) = some a) :
    handleMouseDown st0 acts aid mode p =
      { isDragging := true, draggedActivityId := some aid, dragMode := mode,
        dragStartAngle := p, initialStartTime := some a.startTime,
        initialEndTime := some a.endTime, initialDuration := some a.durationMinutes,
        hasMoved := false } := by
  unfold handleMouseDown
  rw [hfind]

/-- What one `onMove` event does past its guards: latch update, recomputation,
and a push exactly when a timestamp changed. -/
theorem onMoveV1_eval (st : DragSt) (acts : List Activity) (angle : ℚ) (did : String)
    (a : Activity) (hm' : Bool)
    (h1 : st.isDragging = true) (h2 : st.draggedActivityId = some did) (h3 : ¬ did = "")
    (hfind : acts.find? (fun x => x.id == did) = some a)
    (hhm : hm' = (if st.hasMoved = false ∧ |angle - st.dragStartAngle| > 2 then true
                  else st.hasMoved))
    (hgate : hm' = true ∨ st.dragMode ≠ DragMode.dragMove) :
    onMoveV1 st acts angle =
      (if (onMoveCompute st.dragMode a st (snapAngleTo15Min angle)).startTime ≠ a.startTime ∨
          (onMoveCompute st.dragMode a st (snapAngleTo15Min angle)).endTime ≠ a.endTime then
        { st := { st with hasMoved := hm' },
          activities :=
            updateActivityList acts (onMoveCompute st.dragMode a st (snapAngleTo15Min angle)),
          pushed := some (onMoveCompute st.dragMode a st (snapAngleTo15Min angle)) }
      else { st := { st with hasMoved := hm' }, activities := acts, pushed := none }) := by
  unfold onMoveV1
  rw [h1, h2]
  rw [if_neg (by simp)]
  simp only [hfind, ← hhm, onMoveCompute_hasMoved_irrel]
  rw [if_neg h3]
  rw [if_neg ?_]
  · rfl
  · rcases hgate with hg | hg
    · rw [hg]; simp
    · intro hcon
      exact hg hcon.2

/-- The whole-number-of-milliseconds shift a `move`-mode drag applies to a
snapshotted endpoint. -/
theorem dragMove_shift (iS : ℤ) (x y : ℚ) :
    jsTrunc ((iS : ℚ) + (snapAngleTo15Min x - snapAngleTo15Min y) / 15 * 60 * 60 * 1000) =
      iS + 900000 * (jsRound (x / 3.75) - jsRound (y / 3.75)) := by
  have harg : (iS : ℚ) + (snapAngleTo15Min x - snapAngleTo15Min y) / 15 * 60 * 60 * 1000 =
      ((iS + 900000 * (jsRound (x / 3.75) - jsRound (y / 3.75)) : ℤ) : ℚ) := by
    simp only [snapAngleTo15Min]
    push_cast
    ring
  rw [harg, jsTrunc_intCast]

/-- **C4 (amended).** In `move` mode, a pointer-move whose angular displacement
from the press angle is 1° never alters any activity (the 2° latch stays
unset and `onMove` returns before recomputing anything); a 3° move sets the
latch and alters the dragged activity exactly when the snapped current angle
differs from the snapped press angle — when both snap to the same 3.75° step
(e.g. pressing at 2.25° and moving to 5.25°) nothing changes. -/
theorem claim_C4_moveThreshold :
    (∀ (st0 : DragSt) (acts : List Activity) (a : Activity) (p angle : ℚ),
      acts.find? (fun x => x.id == a.id) = some a → ¬ a.id = "" → |angle - p| = 1 →
      (onMoveV1 (handleMouseDown st0 acts a.id DragMode.dragMove p) acts angle).activities =
        acts ∧
      (onMoveV1 (handleMouseDown st0 acts a.id DragMode.dragMove p) acts angle).pushed =
        none) ∧
    (∀ (st0 : DragSt) (acts : List Activity) (a : Activity) (p angle : ℚ),
      acts.find? (fun x => x.id == a.id) = some a → ¬ a.id = "" → |angle - p| = 3 →
      snapAngleTo15Min angle ≠ snapAngleTo15Min p →
      (onMoveV1 (handleMouseDown st0 acts a.id DragMode.dragMove p) acts angle).st.hasMoved =
        true ∧
      ∃ u, (onMoveV1 (handleMouseDown st0 acts a.id DragMode.dragMove p) acts angle).pushed =
          some u ∧
        u.startTime ≠ a.startTime ∧
        (onMoveV1 (handleMouseDown st0 acts a.id DragMode.dragMove p) acts angle).activities =
          updateActivityList acts u) := by
  constructor
  · intro st0 acts a p angle hfind hne habs
    rw [handleMouseDown_found st0 acts a.id DragMode.dragMove p a hfind]
    have hno : ¬ |angle - p| > 2 := by rw [habs]; norm_num
    unfold onMoveV1
    rw [if_neg (by simp)]
    simp only []
    rw [if_neg hne]
    rw [if_pos ?_]
    · exact ⟨rfl, rfl⟩
    · constructor
      · simp [hno]
      · trivial
  · intro st0 acts a p angle hfind hne habs hsnapne
    rw [handleMouseDown_found st0 acts a.id DragMode.dragMove p a hfind]
    have hyes : |angle - p| > 2 := by rw [habs]; norm_num
    set st1 : DragSt :=
      { isDragging := true, draggedActivityId := some a.id, dragMode := DragMode.dragMove,
        dragStartAngle := p, initialStartTime := some a.startTime,
        initialEndTime := some a.endTime, initialDuration := some a.durationMinutes,
        hasMoved := false } with hst1
    have hhm : (true : Bool) =
        (if st1.hasMoved = false ∧ |angle - st1.dragStartAngle| > 2 then true
         else st1.hasMoved) := by
      rw [if_pos ⟨rfl, hyes⟩]
    rw [onMoveV1_eval st1 acts angle a.id a true rfl rfl hne hfind hhm (Or.inl rfl)]
    have hd : jsRound (angle / 3.75) - jsRound (p / 3.75) ≠ 0 := by
      intro hzero
      apply hsnapne
      unfold snapAngleTo15Min
      have : jsRound (angle / 3.75) = jsRound (p / 3.75) := by omega
      rw [this]
    have hstart : (onMoveCompute st1.dragMode a st1 (snapAngleTo15Min angle)).startTime =
        a.startTime + 900000 * (jsRound (angle / 3.75) - jsRound (p / 3.75)) := by
      show jsTrunc _ = _
      exact dragMove_shift a.startTime angle p
    have hchanged :
        (onMoveCompute st1.dragMode a st1 (snapAngleTo15Min angle)).startTime ≠ a.startTime := by
      rw [hstart]
      omega
    rw [if_pos (Or.inl hchanged)]
    exact ⟨rfl, onMoveCompute st1.dragMode a st1 (snapAngleTo15Min angle), rfl, hchanged, rfl⟩

/-- Counterexample for C4 as stated: a 3° move (press 2.25°, move to 5.25°)
crosses the 2° threshold and sets the latch, yet alters nothing, because both
angles snap to the same `3.75°` step. -/
theorem claim_C4_counterexample :
    |(5.25 : ℚ) - 2.25| = 3 ∧
    (onMoveV1 (handleMouseDown initialDragSt [actA] "A" DragMode.dragMove 2.25)
      [actA] 5.25).st.hasMoved = true ∧
    (onMoveV1 (handleMouseDown initialDragSt [actA] "A" DragMode.dragMove 2.25)
      [actA] 5.25).pushed = none ∧
    (onMoveV1 (handleMouseDown initialDragSt [actA] "A" DragMode.dragMove 2.25)
      [actA] 5.25).activities = [actA] := by
  have hfind : [actA].find? (fun x => x.id == "A") = some actA := by decide
  rw [handleMouseDown_found initialDragSt [actA] "A" DragMode.dragMove 2.25 actA hfind]
  set st1 : DragSt :=
    { isDragging := true, draggedActivityId := some "A", dragMode := DragMode.dragMove,
      dragStartAngle := 2.25, initialStartTime := some actA.startTime,
      initialEndTime := some actA.endTime, initialDuration := some actA.durationMinutes,
      hasMoved := false } with hst1
  have hyes : |(5.25 : ℚ) - 2.25| > 2 := by norm_num
  have hhm : (true : Bool) =
      (if st1.hasMoved = false ∧ |(5.25 : ℚ) - st1.dragStartAngle| > 2 then true
       else st1.hasMoved) := by
    rw [if_pos ⟨rfl, hyes⟩]
  rw [onMoveV1_eval st1 [actA] 5.25 "A" actA true rfl rfl (by decide) hfind hhm (Or.inl rfl)]
  have hsame : jsRound ((5.25 : ℚ) / 3.75) = jsRound ((2.25 : ℚ) / 3.75) := by
    norm_num [jsRound]
  have hstart : (onMoveCompute st1.dragMode actA st1 (snapAngleTo15Min 5.25)).startTime =
      actA.startTime := by
    show jsTrunc _ = _
    rw [dragMove_shift actA.startTime 5.25 2.25, hsame]
    ring
  have hend : (onMoveCompute st1.dragMode actA st1 (snapAngleTo15Min 5.25)).endTime =
      actA.endTime := by
    show jsTrunc _ = _
    rw [dragMove_shift actA.endTime 5.25 2.25, hsame]
    ring
  rw [if_neg (by push_neg; exact ⟨hstart, hend⟩)]
  exact ⟨by norm_num, rfl, rfl, rfl⟩

/-- Witness for C4: pressing at 0° and moving to 3° (snaps 0 and 3.75 differ)
sets the latch and pushes an update with a changed start time. -/
theorem claim_C4_moveThreshold_witness :
    (onMoveV1 (handleMouseDown initialDragSt [actA] "A" DragMode.dragMove 0)
      [actA] 3).st.hasMoved = true :=
  (claim_C4_moveThreshold.2 initialDragSt [actA] actA 0 3 (by decide) (by decide)
    (by norm_num) (by norm_num [snapAngleTo15Min, jsRound])).1

/-- **C8 (amended).** In the richer variant's `onMove`, past the drag guards an
update is pushed if and only if the recomputed start or end timestamp differs
from the dragged activity's current value, and a no-op recomputation leaves
the activity list untouched with nothing pushed.  The simpler variant's
`onMouseMove`, by contrast, pushes an update on every move of an active drag,
even when the recomputed timestamps equal the current ones. -/
theorem claim_C8_pushOnlyIfChanged :
    (∀ (st : DragSt) (acts : List Activity) (angle : ℚ) (did : String) (a : Activity)
      (hm' : Bool),
      st.isDragging = true → st.draggedActivityId = some did → ¬ did = "" →
      acts.find? (fun x => x.id == did) = some a →
      hm' = (if st.hasMoved = false ∧ |angle - st.dragStartAngle| > 2 then true
             else st.hasMoved) →
      hm' = true ∨ st.dragMode ≠ DragMode.dragMove →
      (((onMoveV1 st acts angle).pushed).isSome = true ↔
        ((onMoveCompute st.dragMode a st (snapAngleTo15Min angle)).startTime ≠ a.startTime ∨
         (onMoveCompute st.dragMode a st (snapAngleTo15Min angle)).endTime ≠ a.endTime)) ∧
      ((onMoveCompute st.dragMode a st (snapAngleTo15Min angle)).startTime = a.startTime ∧
       (onMoveCompute st.dragMode a st (snapAngleTo15Min angle)).endTime = a.endTime →
        (onMoveV1 st acts angle).activities = acts ∧
        (onMoveV1 st acts angle).pushed = none)) ∧
    (∀ (did : String) (mode : DragModeV2) (acts : List Activity) (angle : ℚ) (a : Activity),
      ¬ did = "" → acts.find? (fun x => x.id == did) = some a →
      ∃ u, (onMouseMoveV2 true (some did) mode acts angle).2 = some u) := by
  constructor
  · intro st acts angle did a hm' h1 h2 h3 hfind hhm hgate
    rw [onMoveV1_eval st acts angle did a hm' h1 h2 h3 hfind hhm hgate]
    by_cases hch :
        (onMoveCompute st.dragMode a st (snapAngleTo15Min angle)).startTime ≠ a.startTime ∨
        (onMoveCompute st.dragMode a st (snapAngleTo15Min angle)).endTime ≠ a.endTime
    · rw [if_pos hch]
      refine ⟨by simpa using hch, ?_⟩
      intro heq
      rcases hch with hc | hc
      · exact absurd heq.1 hc
      · exact absurd heq.2 hc
    · rw [if_neg hch]
      push_neg at hch
      exact ⟨by simp [hch.1, hch.2], fun _ => ⟨rfl, rfl⟩⟩
  · intro did mode acts angle a hne hfind
    unfold onMouseMoveV2
    rw [if_neg (by simp)]
    simp only [hfind]
    rw [if_neg hne]
    exact ⟨_, rfl⟩

/-- Counterexample for C8 as stated: in the simpler variant, with `actA`
already ending at 10:00, a drag-end move to the 10:00 position (angle 150)
recomputes timestamps equal to the current ones and still pushes an update
to the store. -/
theorem claim_C8_counterexample :
    onMouseMoveV2 true (some "A") DragModeV2.vEnd [actA] 150 = ([actA], some actA) := by
  have hfind : [actA].find? (fun x => x.id == "A") = some actA := by decide
  have hval : angleToTime (snapAngleTo15Min 150) actA.startTime = actA.endTime := by
    norm_num [snapAngleTo15Min, jsRound, angleToTime, jsMod, jsTrunc, jsFloor, setHoursMin,
      actA, hm]
  unfold onMouseMoveV2
  rw [if_neg (by simp)]
  simp only [hfind]
  rw [if_neg (by decide : ¬ ("A" : String) = "")]
  simp only [if_true]
  rw [hval]
  have hdur : wrapMinutes (actA.endTime - actA.startTime) = actA.durationMinutes := by
    norm_num [wrapMinutes, actA, hm]
  rw [hdur]
  show (updateActivityList [actA] actA, some actA) = ([actA], some actA)
  have hupd : updateActivityList [actA] actA = [actA] := by decide
  rw [hupd]

/-- Witness for C8: an `end`-mode drag of `actA` to its current end position
(angle 150) pushes nothing and leaves the list unchanged. -/
theorem claim_C8_pushOnlyIfChanged_witness :
    (onMoveV1
      { isDragging := true, draggedActivityId := some "A", dragMode := DragMode.dragEnd,
        dragStartAngle := 0, initialStartTime := none, initialEndTime := none,
        initialDuration := none, hasMoved := true } [actA] 150).pushed = none :=
  ((claim_C8_pushOnlyIfChanged.1
      { isDragging := true, draggedActivityId := some "A", dragMode := DragMode.dragEnd,
        dragStartAngle := 0, initialStartTime := none, initialEndTime := none,
        initialDuration := none, hasMoved := true } [actA] 150 "A" actA true
      rfl rfl (by decide) (by decide) (by simp) (Or.inl rfl)).2
    ⟨rfl, by norm_num [onMoveCompute, snapAngleTo15Min, jsRound, angleToTime, jsMod, jsTrunc,
      jsFloor, setHoursMin, actA, hm]⟩).2

/-! ## The `describeArc` full-circle guard -/

/-- Two polar points a `359.99°` sweep apart on a circle of nonzero radius are
distinct: their angular arguments differ by `359.99·π/180`, which is not an
integer multiple of `2π`. -/
theorem polar_endpoints_separate (x y r s : ℚ) (hr : r ≠ 0) :
    (polarToCartesian x y r (s + 359.99)).1 ≠ (polarToCartesian x y r s).1 ∨
    (polarToCartesian x y r (s + 359.99)).2 ≠ (polarToCartesian x y r s).2 := by
  by_contra hcon
  push_neg at hcon
  obtain ⟨hx, hy⟩ := hcon
  simp only [polarToCartesian] at hx hy
  push_cast at hx hy
  set th1 : ℝ := ((s : ℝ) + 359.99 - 90) * Real.pi / 180 with hth1
  set th2 : ℝ := ((s : ℝ) - 90) * Real.pi / 180 with hth2
  have hrR : (r : ℝ) ≠ 0 := by exact_mod_cast hr
  have hcos : Real.cos th1 = Real.cos th2 := by
    have hz : (r : ℝ) * (Real.cos th1 - Real.cos th2) = 0 := by linear_combination hx
    rcases mul_eq_zero.mp hz with h | h
    · exact absurd h hrR
    · linarith [h]
  have hsin : Real.sin th1 = Real.sin th2 := by
    have hz : (r : ℝ) * (Real.sin th1 - Real.sin th2) = 0 := by linear_combination hy
    rcases mul_eq_zero.mp hz with h | h
    · exact absurd h hrR
    · linarith [h]
  have hang : (th1 : Real.Angle) = (th2 : Real.Angle) := Real.Angle.cos_sin_inj hcos hsin
  rw [Real.Angle.angle_eq_iff_two_pi_dvd_sub] at hang
  obtain ⟨k, hk⟩ := hang
  have hth : th1 - th2 = (359.99 : ℝ) * Real.pi / 180 := by
    rw [hth1, hth2]
    ring
  rw [hth] at hk
  have h360 : (359.99 : ℝ) = 360 * (k : ℝ) := by
    have hπ : Real.pi ≠ 0 := Real.pi_ne_zero
    have h1 : Real.pi * 359.99 = Real.pi * (360 * (k : ℝ)) := by linear_combination 180 * hk
    exact mul_left_cancel₀ hπ h1
  rcases le_or_lt k 0 with hk0 | hk1
  · have : (k : ℝ) ≤ 0 := by exact_mod_cast hk0
    nlinarith
  · have : (1 : ℝ) ≤ (k : ℝ) := by exact_mod_cast hk1
    nlinarith

/-- **C6 (amended).** `describeArc` never emits a path whose angular sweep is
exactly `±360°`: whenever `|endAngle − startAngle| ≥ 360` the end angle is
clamped to `startAngle + 359.99`, so `describeArc(cx, cy, r, 0, 360)` produces
exactly the path of `endAngle = 359.99`, and in every clamped call with
nonzero radius the arc's start and end points do not coincide.  (With zero
radius, or with equal start and end angles, the two points do coincide — see
the counterexample.) -/
theorem claim_C6_no360Sweep :
    (∀ s e : ℚ, |clampEndAngle s e - s| ≠ 360) ∧
    (∀ x y r s e : ℚ, |e - s| ≥ 360 →
      describeArc x y r s e = describeArc x y r s (s + 359.99)) ∧
    (∀ x y r : ℚ, describeArc x y r 0 360 = describeArc x y r 0 359.99) ∧
    (∀ x y r s e : ℚ, |e - s| ≥ 360 → r ≠ 0 →
      (describeArc x y r s e).startX ≠ (describeArc x y r s e).endX ∨
      (describeArc x y r s e).startY ≠ (describeArc x y r s e).endY) := by
  have hnoclamp : ∀ s : ℚ, clampEndAngle s (s + 359.99) = s + 359.99 := by
    intro s
    unfold clampEndAngle
    rw [if_neg ?_]
    have habs : s + 359.99 - s = 359.99 := by ring
    rw [habs, abs_of_pos (by norm_num)]
    norm_num
  have hclamp : ∀ s e : ℚ, |e - s| ≥ 360 → clampEndAngle s e = s + 359.99 := by
    intro s e hge
    unfold clampEndAngle
    rw [if_pos hge]
  have hpart2 : ∀ x y r s e : ℚ, |e - s| ≥ 360 →
      describeArc x y r s e = describeArc x y r s (s + 359.99) := by
    intro x y r s e hge
    unfold describeArc
    rw [hclamp s e hge, hnoclamp s]
  refine ⟨?_, hpart2, ?_, ?_⟩
  · intro s e
    unfold clampEndAngle
    split_ifs with h
    · have habs : s + 359.99 - s = 359.99 := by ring
      rw [habs, abs_of_pos (by norm_num)]
      norm_num
    · intro hc
      exact h (le_of_eq hc.symm)
  · intro x y r
    have h1 := hpart2 x y r 0 360 (by norm_num)
    have h2 : (0 : ℚ) + 359.99 = 359.99 := by norm_num
    rw [h1, h2]
  · intro x y r s e hge hr
    have h1 : clampEndAngle s e = s + 359.99 := hclamp s e hge
    have hsx : (describeArc x y r s e).startX = (polarToCartesian x y r (s + 359.99)).1 := by
      simp only [describeArc, h1]
    have hsy : (describeArc x y r s e).startY = (polarToCartesian x y r (s + 359.99)).2 := by
      simp only [describeArc, h1]
    have hex : (describeArc x y r s e).endX = (polarToCartesian x y r s).1 := rfl
    have hey : (describeArc x y r s e).endY = (polarToCartesian x y r s).2 := rfl
    rw [hsx, hsy, hex, hey]
    exact polar_endpoints_separate x y r s hr

/-- Witness for C6 at the spec's own example call `describeArc(cx, cy, r, 0, 360)`
with radius 1. -/
theorem claim_C6_no360Sweep_witness :
    describeArc 0 0 1 0 360 = describeArc 0 0 1 0 359.99 ∧
    ((describeArc 0 0 1 0 360).startX ≠ (describeArc 0 0 1 0 360).endX ∨
     (describeArc 0 0 1 0 360).startY ≠ (describeArc 0 0 1 0 360).endY) :=
  ⟨claim_C6_no360Sweep.2.2.1 0 0 1,
   claim_C6_no360Sweep.2.2.2 0 0 1 0 360 (by norm_num) (by norm_num)⟩

/-- Counterexample for C6's "start and end points never coincide" read as a
universal statement: a degenerate (zero-sweep) call makes them coincide even
with positive radius. -/
theorem claim_C6_counterexample :
    (describeArc 0 0 1 10 10).startX = (describeArc 0 0 1 10 10).endX ∧
    (describeArc 0 0 1 10 10).startY = (describeArc 0 0 1 10 10).endY := by
  have hcl : clampEndAngle 10 10 = 10 := by
    unfold clampEndAngle
    rw [if_neg ?_]
    norm_num
  constructor <;> simp [describeArc, hcl]

end Chronodex
